import Mathlib

/-!
Shallow embedding of the FloatChat NetCDF ingestion and normalization
pipeline (the `netcdf_processor.py` and `data_transformer.py` modules),
together with theorems settling the specification's claims against the
embedded code.

Modelling conventions:
* Python floats are modelled exactly: a finite value is a rational, NaN is a
  separate constructor.  `float(x)` on non-numeric text raises `ValueError`,
  modelled by `Option`.
* A numpy array is modelled by its rank-0/1/2 contents (`NDArray`); ranks
  above 2 never occur in the claims' inputs and rank-2 already exercises the
  `ndim > 1` branch of the code.
* `try/except` blocks become `Except`/`Option` plumbing: an inner handler is
  a local `match`, the broad outer handlers of the Python code are the
  outermost `match` of the corresponding definition.
-/

unseal Rat.add Rat.mul Rat.sub Rat.inv Rat.ofScientific

set_option maxRecDepth 1000000

namespace FloatChat

/-- A scalar cell value as seen by the Python code: a finite float (`num`),
the float NaN (`nan`), or non-numeric text (`str`) on which Python
`float()` raises `ValueError`.  (Numeric text, which `float()` would accept,
is modelled by `num`.) -/
inductive Scalar where
  | num (q : ℚ)
  | nan
  | str (s : String)
deriving DecidableEq

/-- Result of a successful Python `float(x)`: a finite value or NaN. -/
inductive FVal where
  | num (q : ℚ)
  | nan
deriving DecidableEq

/-- Python `float(x)`; `none` models a raised `ValueError`. -/
def Scalar.pyFloat : Scalar → Option FVal
  | .num q => some (.num q)
  | .nan => some .nan
  | .str _ => none

/-- Python `str(x)` applied to a scalar value (total, never raises). -/
def Scalar.pyStr : Scalar → String
  | .num q => toString q
  | .nan => "nan"
  | .str s => s

/-- A numpy array of rank 0, 1 or 2. -/
inductive NDArray where
  | scalar (v : Scalar)
  | vec (vs : List Scalar)
  | mat (rows : List (List Scalar))
deriving DecidableEq

/-- A named dataset variable with its `.values` array and the attributes the
code reads (`attrs.get` with default `''`). -/
structure Var where
  name : String
  values : NDArray := .vec []
  long_name : String := ""
  standard_name : String := ""
  units : String := ""
deriving DecidableEq

/-- An opened `xarray.Dataset`: ordered variables (`ds.variables`, here
`vars` since `variables` is reserved in Lean), global attributes, and the
dimension-size mapping `ds.sizes` (Python dicts preserve insertion order,
hence association lists). -/
structure Dataset where
  vars : List Var := []
  attrs : List (String × Scalar) := []
  sizes : List (String × Nat) := []
deriving DecidableEq

/-- Does `hay` start with `needle`? -/
def listStartsWith : List Char → List Char → Bool
  | _, [] => true
  | [], _ :: _ => false
  | h :: hs, n :: ns => h == n && listStartsWith hs ns

/-- Substring containment on character lists. -/
def listContainsSub (hay needle : List Char) : Bool :=
  if listStartsWith hay needle then true
  else
    match hay with
    | [] => false
    | _ :: t => listContainsSub t needle

/-- Python `needle in hay` on strings (substring containment). -/
def strContains (hay needle : String) : Bool :=
  listContainsSub hay.toList needle.toList

/-- ASCII lower-casing of one character (Python `str.lower()`; every string
the code lower-cases is ASCII). -/
def lowerChar (c : Char) : Char :=
  if 65 ≤ c.toNat ∧ c.toNat ≤ 90 then Char.ofNat (c.toNat + 32) else c

/-- Python `s.lower()`, as a character list. -/
def lowerStr (s : String) : List Char :=
  s.toList.map lowerChar

/-- Python `needle in hay.lower()` where `needle` is already lower-case. -/
def strContainsLower (hay : String) (needle : String) : Bool :=
  listContainsSub (lowerStr hay) needle.toList

/-- First value bound to a key in an association list (Python dict lookup). -/
def lookupKey {β : Type} (k : String) (l : List (String × β)) : Option β :=
  (l.find? (fun kv => kv.1 == k)).map (fun kv => kv.2)

/-- The dataset's variable names, in order (`ds.variables` iteration). -/
def Dataset.varNames (ds : Dataset) : List String :=
  ds.vars.map (fun v => v.name)

/-- Python `name in ds.variables`. -/
def Dataset.hasVar (ds : Dataset) (n : String) : Bool :=
  ds.varNames.contains n

/-- Python `ds[name]` (first variable with the given name). -/
def Dataset.getVar (ds : Dataset) (n : String) : Option Var :=
  ds.vars.find? (fun v => v.name == n)

/-- Source: `NetCDFProcessor.argo_required_variables`. -/
def argo_required_variables : List String := ["PRES", "TEMP", "PSAL"]

/-- Source: `NetCDFProcessor.variable_mappings`: the static ordered alias lists per
canonical field, exactly as in the source. -/
def variable_mappings : List (String × List String) :=
  [("temperature", ["TEMP", "TEMP_ADJUSTED", "temp_adjusted", "temp",
      "temperature", "T", "sea_water_temperature", "TEMPERATURE"]),
   ("pressure", ["PRES", "PRES_ADJUSTED", "pres_adjusted", "pres",
      "pressure", "P", "sea_water_pressure", "PRESSURE"]),
   ("depth", ["DEPTH", "depth", "z", "Z", "level", "LEVEL"]),
   ("salinity", ["PSAL", "PSAL_ADJUSTED", "psal_adjusted", "psal",
      "salinity", "salt", "S", "sea_water_salinity", "SALINITY"]),
   ("oxygen", ["DOXY", "DOXY_ADJUSTED", "doxy_adjusted", "oxygen",
      "o2", "O2", "dissolved_oxygen", "OXYGEN"]),
   ("latitude", ["LATITUDE", "latitude", "lat", "LAT", "y", "Y"]),
   ("longitude", ["LONGITUDE", "longitude", "lon", "LON", "x", "X"]),
   ("time", ["JULD", "time", "TIME", "t", "T", "date", "DATE"])]

/-- Pass 1 of `find_variable`: direct (case-sensitive) name match, trying
aliases in listed order (`for name in possible_names: if name in
ds.variables: return name`). -/
def directNameMatch (ds : Dataset) (possibleNames : List String) : Option String :=
  possibleNames.find? (fun n => ds.hasVar n)

/-- Pass 2 of `find_variable`: case-insensitive exact match (alias-major
iteration, returning the dataset's variable name). -/
def ciExactMatch (ds : Dataset) (possibleNames : List String) : Option String :=
  possibleNames.findSome? (fun n =>
    ds.varNames.find? (fun vn => lowerStr n == lowerStr vn))

/-- Pass 3 of `find_variable`: case-insensitive substring match of the alias
inside a variable name (alias-major iteration). -/
def ciSubstringMatch (ds : Dataset) (possibleNames : List String) : Option String :=
  possibleNames.findSome? (fun n =>
    ds.varNames.find? (fun vn => listContainsSub (lowerStr vn) (lowerStr n)))

/-- Pass 4 of `find_variable`: case-insensitive substring match of an alias
inside a variable's `long_name` or `standard_name` attribute (variable-major
iteration, as in the source). -/
def attrSubstringMatch (ds : Dataset) (possibleNames : List String) : Option String :=
  ds.vars.findSome? (fun v =>
    if possibleNames.any (fun n =>
        listContainsSub (lowerStr v.long_name) (lowerStr n)
        || listContainsSub (lowerStr v.standard_name) (lowerStr n))
    then some v.name else none)

/-- Source: `NetCDFProcessor.find_variable`: four passes in priority order, first
success wins; `None` when the canonical field has no alias list or all four
passes fail. -/
def find_variable (ds : Dataset) (varType : String) : Option String :=
  match lookupKey varType variable_mappings with
  | none => none
  | some possibleNames =>
      match directNameMatch ds possibleNames with
      | some r => some r
      | none =>
        match ciExactMatch ds possibleNames with
        | some r => some r
        | none =>
          match ciSubstringMatch ds possibleNames with
          | some r => some r
          | none => attrSubstringMatch ds possibleNames

/-- The ocean-domain keywords of `detect_file_type`. -/
def ocean_indicators : List String := ["sea_water", "ocean", "marine", "float", "profile"]

/-- Number of ARGO required variables present
(`sum(1 for var in self.argo_required_variables if var in ds.variables)`). -/
def argoVarCount (ds : Dataset) : Nat :=
  argo_required_variables.countP (fun v => ds.hasVar v)

/-- The keyword check of `detect_file_type`: some variable name or `long_name`
attribute contains an ocean indicator (case-insensitively). -/
def hasOceanIndicator (ds : Dataset) : Bool :=
  ds.vars.any (fun v =>
    ocean_indicators.any (fun ind => strContainsLower v.name ind)
    || ocean_indicators.any (fun ind => strContainsLower v.long_name ind))

/-- Source: `NetCDFProcessor.detect_file_type`.  The body is pure, so the
`except`-to-`"general"` handler of the source is dead code here. -/
def detect_file_type (ds : Dataset) : String :=
  if 2 ≤ argoVarCount ds then "argo"
  else if hasOceanIndicator ds then "oceanographic"
  else "general"

/-- numpy `.item()`: the single element of a size-1 array, `ValueError`
(`none`) otherwise. -/
def NDArray.item : NDArray → Option Scalar
  | .scalar v => some v
  | .vec [v] => some v
  | .vec _ => none
  | .mat [[v]] => some v
  | .mat _ => none

/-- Source: `NetCDFProcessor.safe_extract_value`; at its call sites: the argument is
always a numpy array (`ds[...].values`), which always has an `item`
attribute, so the function returns `item()` on success and the default
`None` when `item()` raises; the `__len__`/`isscalar` branches of the
source are unreachable for array arguments. -/
def safe_extract_value (a : NDArray) : Option Scalar := a.item

/-- The absolute timestamp produced by `convert_time_to_datetime`, kept
symbolic: an epoch plus an offset, a generically parsed raw value, the NaT
value arising from NaN offset arithmetic, or the current wall-clock time. -/
inductive DTime where
  | epochDays (d : ℚ)
  | sinceSeconds (base : String) (s : ℚ)
  | sinceHours (base : String) (h : ℚ)
  | parsed (v : Scalar)
  | notATime
  | now
deriving DecidableEq

/-- Ten characters forming `\d{4}-\d{2}-\d{2}` at the head of the list. -/
def dateAt : List Char → Option String
  | a :: b :: c :: d :: '-' :: e :: f :: '-' :: g :: h :: _ =>
    if a.isDigit && b.isDigit && c.isDigit && d.isDigit
        && e.isDigit && f.isDigit && g.isDigit && h.isDigit
    then some (String.mk [a, b, c, d, '-', e, f, '-', g, h]) else none
  | _ => none

/-- Drop the leading whitespace run. -/
def skipWs : List Char → List Char
  | [] => []
  | c :: rest => if c.isWhitespace then skipWs rest else c :: rest

/-- Match `since\s+(\d{4}-\d{2}-\d{2})` anchored at the head.  (`\d` cannot
be whitespace, so the backtracking of `\s+` reduces to skipping the maximal
whitespace run.) -/
def sinceDateAt (cs : List Char) : Option String :=
  match cs with
  | 's' :: 'i' :: 'n' :: 'c' :: 'e' :: c :: rest =>
    if c.isWhitespace then dateAt (skipWs rest) else none
  | _ => none

/-- Python `re.search(r"since\s+(\d{4}-\d{2}-\d{2})", units)`: the group of the
leftmost match. -/
def findSinceDate : List Char → Option String
  | [] => none
  | c :: rest =>
    match sinceDateAt (c :: rest) with
    | some d => some d
    | none => findSinceDate rest

/-- Modelled behaviour of `pd.Timestamp(x)` on a raw value: succeeds on
numbers (epoch offset) and on NaN (NaT), succeeds on text carrying a leading
ISO date, raises (`none`) on other text. -/
def pdParse : Scalar → Option DTime
  | .num q => some (.parsed (.num q))
  | .nan => some (.parsed .nan)
  | .str s => if (dateAt s.toList).isSome then some (.parsed (.str s)) else none

/-- Source: `NetCDFProcessor.convert_time_to_datetime`.  Notes kept from the source:
* the three unit tests are substring tests on the lower-cased unit string,
  in source order, while the regex search runs on the original string;
* in the `hours since` branch the name `re` is an unassigned local —
  `import re` executes only inside the `seconds since` branch — so that
  branch always raises `UnboundLocalError`, which the outer handler turns
  into `datetime.now()`;
* a NaN offset propagates to NaT through the pandas arithmetic;
* `float(time_value)` raising on non-numeric text is caught by the outer
  handler (`datetime.now()`);
* a matched date group is assumed to denote a valid calendar date
  (`pd.Timestamp` on an out-of-range date would also fall to the outer
  handler; no claim exercises such inputs). -/
def convert_time_to_datetime (timeVar : Var) (timeValue : Scalar) : DTime :=
  let units := timeVar.units
  if strContainsLower units "days since 1950" then
    match timeValue.pyFloat with
    | some (.num q) => .epochDays q
    | some .nan => .notATime
    | none => .now
  else if strContainsLower units "seconds since" then
    match findSinceDate units.toList with
    | some base =>
      match timeValue.pyFloat with
      | some (.num q) => .sinceSeconds base q
      | some .nan => .notATime
      | none => .now
    | none => (pdParse timeValue).getD .now
  else if strContainsLower units "hours since" then
    .now
  else (pdParse timeValue).getD .now

/-- The metadata dictionary built by `extract_profile_metadata`; keys that
may be absent from the Python dict are `Option`-valued (`variables_list`
models the `variables` key; `file_hash`/`file_path` are appended by
`process_file`). -/
structure Metadata where
  file_type : String
  platform_number : Option String := none
  float_id : Option String := none
  cycle_number : Int := 0
  latitude : FVal := .num 0
  longitude : FVal := .num 0
  measurement_date : DTime := .now
  data_center : String := "unknown"
  dimensions : Option (List (String × Nat)) := none
  variables_list : Option (List String) := none
  file_hash : Option String := none
  file_path : Option String := none
deriving DecidableEq

/-- Candidate platform variables, in source order. -/
def platform_vars : List String :=
  ["PLATFORM_NUMBER", "platform_number", "station", "STATION", "id", "ID"]

/-- The platform variable loop: first candidate present in the dataset whose
extracted value is not `None` (a `None` value does not break the loop). -/
def platformFromVars (ds : Dataset) : Option String :=
  platform_vars.findSome? (fun n =>
    match ds.getVar n with
    | some v => (safe_extract_value v.values).map Scalar.pyStr
    | none => none)

/-- Candidate platform global attributes, in source order. -/
def platform_attrs : List String := ["platform_number", "station_id", "id"]

/-- Global-attribute fallback for the platform identifier: first present
attribute (`str` never fails, so presence alone breaks the loop). -/
def platformFromAttrs (ds : Dataset) : Option String :=
  platform_attrs.findSome? (fun a => (lookupKey a ds.attrs).map Scalar.pyStr)

/-- Candidate cycle-number variables, in source order. -/
def cycle_vars : List String := ["CYCLE_NUMBER", "cycle_number", "profile", "PROFILE"]

/-- Python `int(float(v))`: truncation toward zero. -/
def truncToInt (q : ℚ) : Int := q.num / (q.den : Int)

/-- The cycle-number loop: first candidate whose value both extracts and
converts; a `ValueError` from `int(float(...))` (text or NaN) continues the
loop, a `None` value also continues. -/
def cycleFromVars (ds : Dataset) : Option Int :=
  cycle_vars.findSome? (fun n =>
    match ds.getVar n with
    | some v =>
      match safe_extract_value v.values with
      | some sc =>
        match sc.pyFloat with
        | some (.num q) => some (truncToInt q)
        | some .nan => none
        | none => none
      | none => none
    | none => none)

/-- The variable tier for latitude/longitude: the resolved variable's value,
with NaN treated as absent; `float()` on non-numeric text raises outside any
per-field handler, reaching the shared handler (`Except.error`). -/
def coordFromVarE (ds : Dataset) (field : String) : Except Unit (Option ℚ) :=
  match find_variable ds field with
  | none => .ok none
  | some vn =>
    match ds.getVar vn with
    | none => .ok none
    | some v =>
      match safe_extract_value v.values with
      | none => .ok none
      | some sc =>
        match sc.pyFloat with
        | none => .error ()
        | some .nan => .ok none
        | some (.num q) => .ok (some q)

/-- Candidate latitude global attributes, in source order. -/
def latitude_attrs : List String := ["latitude", "geospatial_lat_min", "lat"]

/-- Candidate longitude global attributes, in source order. -/
def longitude_attrs : List String := ["longitude", "geospatial_lon_min", "lon"]

/-- The global-attribute tier for a coordinate: first candidate attribute on
which `float()` succeeds — including a NaN result, which this tier does not
filter; `ValueError`/`TypeError` continue the loop. -/
def coordFromAttrs (ds : Dataset) (attrNames : List String) : Option FVal :=
  attrNames.findSome? (fun a =>
    match lookupKey a ds.attrs with
    | some sc => sc.pyFloat
    | none => none)

/-- The time field: the resolved time variable's value; a missing or NaN
value yields `datetime.now()`, while `float()` raising on non-numeric text
escapes to the shared handler. -/
def timeFieldE (ds : Dataset) : Except Unit DTime :=
  match find_variable ds "time" with
  | none => .ok .now
  | some vn =>
    match ds.getVar vn with
    | none => .ok .now
    | some v =>
      match safe_extract_value v.values with
      | none => .ok .now
      | some sc =>
        match sc.pyFloat with
        | none => .error ()
        | some .nan => .ok .now
        | some (.num _) => .ok (convert_time_to_datetime v sc)

/-- Candidate data-center variables, in source order. -/
def dc_vars : List String := ["DATA_CENTRE", "DATA_CENTER", "data_center", "source", "SOURCE"]

/-- Candidate data-center global attributes, in source order. -/
def dc_attrs : List String := ["data_center", "source", "institution"]

/-- The data-center variable loop (same shape as the platform loop). -/
def dataCenterFromVars (ds : Dataset) : Option String :=
  dc_vars.findSome? (fun n =>
    match ds.getVar n with
    | some v => (safe_extract_value v.values).map Scalar.pyStr
    | none => none)

/-- The data-center global-attribute fallback. -/
def dataCenterFromAttrs (ds : Dataset) : Option String :=
  dc_attrs.findSome? (fun a => (lookupKey a ds.attrs).map Scalar.pyStr)

/-- The dictionary built on the success path of `extract_profile_metadata`,
given the outcomes of the three conversion-sensitive fields. -/
def metaOk (ds : Dataset) (latVar lonVar : Option ℚ) (mdate : DTime) : Metadata :=
  let pn := match platformFromVars ds with
    | some s => some s
    | none => platformFromAttrs ds
  let dc := match dataCenterFromVars ds with
    | some s => some s
    | none => dataCenterFromAttrs ds
  { file_type := detect_file_type ds
    platform_number := pn
    float_id := some (pn.getD "unknown")
    cycle_number := (cycleFromVars ds).getD 0
    latitude := match latVar with
      | some q => .num q
      | none => (coordFromAttrs ds latitude_attrs).getD (.num 0)
    longitude := match lonVar with
      | some q => .num q
      | none => (coordFromAttrs ds longitude_attrs).getD (.num 0)
    measurement_date := mdate
    data_center := dc.getD "unknown"
    dimensions := some ds.sizes
    variables_list := some ds.varNames }

/-- The body of `extract_profile_metadata` inside its broad `try`: an
`Except.error` models an exception reaching the shared handler (the
propagation points are the unguarded `float()` calls of the latitude,
longitude and time fields). -/
def extractMetaBody (ds : Dataset) : Except Unit Metadata :=
  match coordFromVarE ds "latitude" with
  | .error e => .error e
  | .ok latVar =>
    match coordFromVarE ds "longitude" with
    | .error e => .error e
    | .ok lonVar =>
      match timeFieldE ds with
      | .error e => .error e
      | .ok mdate => .ok (metaOk ds latVar lonVar mdate)

/-- The dictionary returned by the shared exception handler of
`extract_profile_metadata` (note: no platform, float-id, dimensions or
variables keys). -/
def fallbackMetadata : Metadata :=
  { file_type := "unknown", data_center := "unknown", cycle_number := 0,
    latitude := .num 0, longitude := .num 0, measurement_date := .now }

/-- Source: `NetCDFProcessor.extract_profile_metadata`. -/
def extract_profile_metadata (ds : Dataset) : Metadata :=
  match extractMetaBody ds with
  | .ok m => m
  | .error _ => fallbackMetadata

/-- The eight canonical measurement fields of the ARGO schema. -/
inductive Param where
  | pressure | depth | temperature | salinity | oxygen | nitrate | ph | chlorophyll
deriving DecidableEq

/-- The Python-side name of a canonical field. -/
def Param.pyName : Param → String
  | .pressure => "pressure"
  | .depth => "depth"
  | .temperature => "temperature"
  | .salinity => "salinity"
  | .oxygen => "oxygen"
  | .nitrate => "nitrate"
  | .ph => "ph"
  | .chlorophyll => "chlorophyll"

/-- The list `schema_vars` of `extract_measurements`, in source order. -/
def schema_vars : List Param :=
  [.pressure, .depth, .temperature, .salinity, .oxygen, .nitrate, .ph, .chlorophyll]

/-- One extracted measurement record: Python `None` is `Option.none`, a
float value (possibly NaN) is `some`. -/
structure Measurement where
  pressure : Option FVal := none
  depth : Option FVal := none
  temperature : Option FVal := none
  salinity : Option FVal := none
  oxygen : Option FVal := none
  nitrate : Option FVal := none
  ph : Option FVal := none
  chlorophyll : Option FVal := none
  quality_flag : Option FVal := none
deriving DecidableEq

/-- Field read of a measurement record by canonical field. -/
def Measurement.get (m : Measurement) : Param → Option FVal
  | .pressure => m.pressure
  | .depth => m.depth
  | .temperature => m.temperature
  | .salinity => m.salinity
  | .oxygen => m.oxygen
  | .nitrate => m.nitrate
  | .ph => m.ph
  | .chlorophyll => m.chlorophyll

/-- Field write of a measurement record by canonical field. -/
def Measurement.put (m : Measurement) : Param → Option FVal → Measurement
  | .pressure, v => { m with pressure := v }
  | .depth, v => { m with depth := v }
  | .temperature, v => { m with temperature := v }
  | .salinity, v => { m with salinity := v }
  | .oxygen, v => { m with oxygen := v }
  | .nitrate, v => { m with nitrate := v }
  | .ph, v => { m with ph := v }
  | .chlorophyll, v => { m with chlorophyll := v }

/-- The list `main_dims` of `extract_measurements`, in source order. -/
def main_dims : List String := ["N_LEVELS", "n_levels", "depth", "time", "level", "z"]

/-- First conventional vertical dimension present in `ds.sizes`. -/
def conventionalMainDim (ds : Dataset) : Option (String × Nat) :=
  main_dims.findSome? (fun d => (lookupKey d ds.sizes).map (fun n => (d, n)))

/-- Python `sorted(ds.sizes.items(), key=size, reverse=True)[0]`: Python's stable
sort makes this the first key of maximal size. -/
def largestDim (sizes : List (String × Nat)) : Option (String × Nat) :=
  match sizes with
  | [] => none
  | x :: xs => some (xs.foldl (fun best y => if best.2 < y.2 then y else best) x)

/-- Rank-aware per-level extraction (`float` of the indexed element); any
failure — bad rank, out-of-bounds index, non-numeric text — yields `None`
for that field only. -/
def extractValueAt (v : Var) (i : Nat) : Option FVal :=
  match v.values with
  | .scalar sc => sc.pyFloat
  | .vec vs =>
    match vs[i]? with
    | some sc => sc.pyFloat
    | none => none
  | .mat rows =>
    match rows[i]? with
    | some row =>
      match row[0]? with
      | some sc => sc.pyFloat
      | none => none
    | none => none

/-- Modelled from the spec: `database.schema.validate_measurement_data` is
not among the analysed sources; the processor module itself defines the
always-true fallback used when that import fails, and the spec requires that
schema validation never raise past the extractor (a raising hook still
appends the record).  Modelled as the in-module fallback, which accepts
every record. -/
def validate_measurement_data (_ : Measurement) : Bool := true

/-- One loop iteration of `extract_measurements`: build the record at level
`i` in `schema_vars` order, backfill depth from pressure (`is None` — NaN is
not `None`), and default the quality flag to good. -/
def buildMeasurement (ds : Dataset) (cols : Param → Option String) (i : Nat) : Measurement :=
  let base : Measurement := schema_vars.foldl (fun m p =>
    match cols p with
    | some vn =>
      match ds.getVar vn with
      | some v => m.put p (extractValueAt v i)
      | none => m.put p none
    | none => m.put p none) {}
  let base := if base.depth = none ∧ base.pressure ≠ none
    then { base with depth := base.pressure } else base
  { base with quality_flag := some (.num 1) }

/-- Source: `NetCDFProcessor.extract_measurements`: vertical-dimension selection,
one `find_variable` resolution per field per profile, then one record per
level (every record passes the modelled schema validation, so each is
appended). -/
def extract_measurements (ds : Dataset) : List Measurement :=
  let dim := match conventionalMainDim ds with
    | some p => some p
    | none => largestDim ds.sizes
  match dim with
  | none => []
  | some (_, n) =>
    if n = 0 then []
    else
      let cols := fun p => find_variable ds (Param.pyName p)
      (List.range n).map (fun i => buildMeasurement ds cols i)

/-- One row of the measurements DataFrame handled by `DataTransformer`.  A
float column of a pandas DataFrame stores Python `None` and NaN identically
as NaN, so a single `none` models a missing cell and `some q` a finite
float.  The pipeline always builds frames with all eight schema columns and
the quality-flag column, so the `in df.columns` tests of the source are
satisfied. -/
structure Row where
  temperature : Option ℚ := none
  salinity : Option ℚ := none
  pressure : Option ℚ := none
  depth : Option ℚ := none
  oxygen : Option ℚ := none
  nitrate : Option ℚ := none
  ph : Option ℚ := none
  chlorophyll : Option ℚ := none
  quality_flag : Option ℚ := none
deriving DecidableEq

/-- Column read of a frame row by canonical field. -/
def Row.get (r : Row) : Param → Option ℚ
  | .pressure => r.pressure
  | .depth => r.depth
  | .temperature => r.temperature
  | .salinity => r.salinity
  | .oxygen => r.oxygen
  | .nitrate => r.nitrate
  | .ph => r.ph
  | .chlorophyll => r.chlorophyll

/-- Column write of a frame row by canonical field. -/
def Row.put (r : Row) : Param → Option ℚ → Row
  | .pressure, v => { r with pressure := v }
  | .depth, v => { r with depth := v }
  | .temperature, v => { r with temperature := v }
  | .salinity, v => { r with salinity := v }
  | .oxygen, v => { r with oxygen := v }
  | .nitrate, v => { r with nitrate := v }
  | .ph, v => { r with ph := v }
  | .chlorophyll, v => { r with chlorophyll := v }

/-- The list `measurement_cols` of `clean_measurements`, in source order (depth is
deliberately absent). -/
def measurement_cols : List Param :=
  [.temperature, .salinity, .pressure, .oxygen, .nitrate, .ph, .chlorophyll]

/-- Source: `DataTransformer.parameter_ranges`, in dict order. -/
def parameter_ranges : List (Param × ℚ × ℚ) :=
  [(.temperature, -5, 50), (.salinity, 0, 50), (.pressure, 0, 10000),
   (.depth, 0, 10000), (.oxygen, 0, 500), (.nitrate, 0, 100),
   (.ph, 6, 9), (.chlorophyll, 0, 100)]

/-- Pandas `df.dropna(subset=available_cols, how='all')`: drop rows whose every
measurement column is missing. -/
def dropAllNull (df : List Row) : List Row :=
  df.filter (fun r => measurement_cols.any (fun p => (r.get p).isSome))

/-- The invalid mask `(df[param] < min_val) | (df[param] > max_val)` on one
cell; a NaN cell compares false on both sides. -/
def outOfRange (lo hi : ℚ) : Option ℚ → Bool
  | none => false
  | some v => decide (v < lo) || decide (hi < v)

/-- One `parameter_ranges` iteration on one row: null the out-of-range value
and force the quality flag to 4. -/
def applyRange (p : Param) (lo hi : ℚ) (r : Row) : Row :=
  if outOfRange lo hi (r.get p) then { r.put p none with quality_flag := some 4 }
  else r

/-- The range-validation loop of `clean_measurements`, column by column in
dict order (each iteration touches only its own column and the flag
column, so the sequential masks do not interact). -/
def rangeStage (df : List Row) : List Row :=
  parameter_ranges.foldl (fun acc pr => acc.map (applyRange pr.1 pr.2.1 pr.2.2)) df

/-- The fold of `applyRange` over an arbitrary range list (for reasoning
about the loop one parameter at a time). -/
def chainRanges (ps : List (Param × ℚ × ℚ)) (r : Row) : Row :=
  ps.foldl (fun s pr => applyRange pr.1 pr.2.1 pr.2.2 s) r

/-- The per-row effect of the range loop: the eight column updates in
sequence. -/
def cleanRow (r : Row) : Row :=
  chainRanges parameter_ranges r

/-- Pandas `df.drop_duplicates(subset=['depth'], keep='first')`, with the keys seen
so far accumulated; pandas treats NaN keys as equal to one another, so
plain `Option ℚ` equality is the key equality. -/
def dedupDepthAux (seen : List (Option ℚ)) : List Row → List Row
  | [] => []
  | r :: rest =>
    if r.depth ∈ seen then dedupDepthAux seen rest
    else r :: dedupDepthAux (r.depth :: seen) rest

/-- Pandas `df.drop_duplicates(subset=['depth'], keep='first')`. -/
def dedupDepth (df : List Row) : List Row := dedupDepthAux [] df

/-- Pandas `df.sort_values('depth')` key order: missing keys placed last
(`na_position='last'`). -/
def depthLE (a b : Row) : Bool :=
  match a.depth, b.depth with
  | some x, some y => decide (x ≤ y)
  | some _, none => true
  | none, some _ => false
  | none, none => true

/-- Pandas `df.sort_values('depth')`.  Duplicate removal has already made all keys
distinct, so every comparison sort — pandas' quicksort included — produces
this unique order. -/
def sortByDepth (df : List Row) : List Row :=
  List.insertionSort (fun a b => depthLE a b = true) df

/-- Source: `DataTransformer.clean_measurements`: drop all-missing rows, apply the
range masks, remove duplicate depths keeping the first occurrence, sort by
depth.  (The `elif 'pressure'` sort branch applies only to frames without a
depth column, which the pipeline never builds.) -/
def clean_measurements (df : List Row) : List Row :=
  sortByDepth (dedupDepth (rangeStage (dropAllNull df)))

/-- Kernel-friendly division of a rational by a natural number (division by
zero yields zero, matching Lean's convention; every use divides by a
positive count). -/
def divNat (a : ℚ) (n : Nat) : ℚ := mkRat a.num (a.den * n)

/-- Mean of the non-missing values (`data.mean()`). -/
def seriesMean (data : List ℚ) : ℚ := divNat data.sum data.length

/-- Sample variance of the non-missing values (`data.std()` squared; pandas
uses `ddof=1`). -/
def seriesVar (data : List ℚ) : ℚ :=
  divNat ((data.map (fun v => (v - seriesMean data) * (v - seriesMean data))).sum)
    (data.length - 1)

/-- Linear-interpolation quantile of the non-missing values
(`Series.quantile`, default `interpolation='linear'`). -/
def quantileQ (data : List ℚ) (q : ℚ) : ℚ :=
  let s := List.insertionSort (fun a b : ℚ => a ≤ b) data
  let n := s.length
  let pos : ℚ := q * (mkRat n 1 - 1)
  let i : Nat := pos.floor.toNat
  let frac : ℚ := pos - mkRat i 1
  let lo := s.getD i 0
  if frac = 0 then lo else lo + frac * (s.getD (i + 1) 0 - lo)

/-- The lower Tukey fence `q1 - 1.5*iqr` of `detect_anomalies`. -/
def fenceLower (data : List ℚ) : ℚ :=
  let q1 := quantileQ data (mkRat 1 4)
  let q3 := quantileQ data (mkRat 3 4)
  q1 - (mkRat 3 2) * (q3 - q1)

/-- The upper Tukey fence `q3 + 1.5*iqr` of `detect_anomalies`. -/
def fenceUpper (data : List ℚ) : ℚ :=
  let q1 := quantileQ data (mkRat 1 4)
  let q3 := quantileQ data (mkRat 3 4)
  q3 + (mkRat 3 2) * (q3 - q1)

/-- The per-cell anomaly test of `detect_anomalies` over the non-missing
data's statistics.  The z-score test `np.abs((v - mean)/std) > 3` with
`std = sqrt(var)` is embedded in its squared, radical-free form
`9 * var < (v - mean)^2`, equivalent over exact arithmetic including the
`std = 0` degenerate case (numpy yields `inf > 3`, true, for `v ≠ mean` and
`nan > 3`, false, for `v = mean`; the square form decides identically).
Missing cells give NaN z-scores and NaN fence comparisons, hence `false`. -/
def anomalyFlag (data : List ℚ) (c : Option ℚ) : Bool :=
  match c with
  | none => false
  | some v => decide (9 * seriesVar data < (v - seriesMean data) * (v - seriesMean data))
      || decide (v < fenceLower data) || decide (fenceUpper data < v)

/-- Source: `DataTransformer.detect_anomalies`; on one parameter column: the
`anomaly_flag` column it adds (row-aligned with the input column; for an
empty frame the source returns the frame unchanged, matching the empty flag
list). -/
def detect_anomalies (col : List (Option ℚ)) : List Bool :=
  if (col.filterMap id).length < 10 then col.map (fun _ => false)
  else col.map (anomalyFlag (col.filterMap id))

/-- The content found at a path: the dataset it opens to (`none` models
`xr.open_dataset` raising), and the file's content digest. -/
structure FileContent where
  openable : Option Dataset := none
  md5 : String := ""
deriving DecidableEq

/-- The file system visible to the processor: paths bound to contents; an
unbound path does not exist. -/
structure FS where
  files : List (String × FileContent) := []
deriving DecidableEq

/-- Source: `NetCDFProcessor.validate_file`; for a processor in mode `mode`: the file
must exist and open with at least one variable; the extension check only
logs and never fails; in `argo` mode a non-argo file must still contain one
of the required variables.  Exceptions inside the `try` (a failing open)
return `False`. -/
def validate_file (fs : FS) (mode : String) (path : String) : Bool :=
  match lookupKey path fs.files with
  | none => false
  | some content =>
    match content.openable with
    | none => false
    | some ds =>
      if ds.vars.length = 0 then false
      else if mode == "argo" && detect_file_type ds != "argo" then
        argo_required_variables.any (fun v => ds.hasVar v)
      else true

/-- Source: `calculate_file_hash`: the digest of the file's bytes, `""` when the
read fails (missing file). -/
def calculate_file_hash (fs : FS) (path : String) : String :=
  match lookupKey path fs.files with
  | none => ""
  | some c => c.md5

/-- Did the call raise to its caller? -/
def pyRaises {ε α : Type} : Except ε α → Bool
  | .error _ => true
  | .ok _ => false

/-- Source: `NetCDFProcessor.process_file`: validation failure raises `ValueError`
(re-raised by the logging handler); the dataset — already opened once during
validation, so the reopen succeeds — is then handed to the total extractors,
after which the hash and path keys are appended to the metadata dict. -/
def process_file (fs : FS) (mode : String) (path : String) :
    Except String (Metadata × List Measurement) :=
  if validate_file fs mode path then
    match lookupKey path fs.files with
    | none => .error path
    | some c =>
      match c.openable with
      | none => .error path
      | some ds =>
        let meta := extract_profile_metadata ds
        let meta := { meta with file_hash := some (calculate_file_hash fs path),
                                file_path := some path }
        .ok (meta, extract_measurements ds)
  else .error path

/-- Source: `NetCDFProcessor.process_multiple_files`: the sequential batch loop with
its per-file `except ... continue`. -/
def process_multiple_files (fs : FS) (mode : String) (paths : List String) :
    List (Metadata × List Measurement) :=
  paths.foldl (fun acc p =>
    match process_file fs mode p with
    | .ok r => acc ++ [r]
    | .error _ => acc) []

/-!  Concrete fixtures used by witnesses and counterexamples. -/

/-- The temperature alias list (the `variable_mappings` entry, for stating
resolver claims). -/
def tempAliases : List String :=
  ["TEMP", "TEMP_ADJUSTED", "temp_adjusted", "temp", "temperature", "T",
   "sea_water_temperature", "TEMPERATURE"]

/-- A dataset containing both the raw and the adjusted temperature name. -/
def dsBothTemp : Dataset :=
  { vars := [{ name := "TEMP" }, { name := "TEMP_ADJUSTED" }] }

/-- The end-to-end scenario file of the spec: `TEMP=[10.0, 12.0]`,
`PSAL=[35.0, 35.2]`, `PRES=[5.0, 100.0]`, `lat=12.5`, `lon=75.0`, no depth
variable. -/
def ds6 : Dataset :=
  { vars := [
      { name := "TEMP", values := .vec [.num 10, .num 12] },
      { name := "PSAL", values := .vec [.num 35, .num 35.2] },
      { name := "PRES", values := .vec [.num 5, .num 100] },
      { name := "LATITUDE", values := .scalar (.num 12.5) },
      { name := "LONGITUDE", values := .scalar (.num 75) }],
    sizes := [("N_LEVELS", 2)] }

/-- A dataset with a resolvable platform number and a latitude variable
holding non-numeric text (on which `float()` raises). -/
def dsPlatformBadLat : Dataset :=
  { vars := [
      { name := "PLATFORM_NUMBER", values := .scalar (.num 42) },
      { name := "LATITUDE", values := .scalar (.str "not a number") }] }

/-- A time variable declaring hour-based units. -/
def hoursVar : Var := { name := "time", units := "hours since 2000-01-01" }

/-- A time variable declaring second-based units. -/
def secondsVar : Var := { name := "time", units := "seconds since 2000-01-01" }

/-- A time variable declaring the profiling-float day convention. -/
def daysVar : Var := { name := "JULD", units := "days since 1950-01-01 00:00:00 UTC" }

/-- A time variable with unrecognized units. -/
def weirdVar : Var := { name := "time", units := "fortnights" }

/-- A 121-value series: 120 zeros and one value 121; its mean is 1, its
sample variance 121, and the outlier sits (120/11, about 10.9) sample
standard deviations from the mean. -/
def series121 : List (Option ℚ) := List.replicate 120 (some 0) ++ [some 121]

/-- A row with an out-of-range temperature. -/
def rowT55 : Row := { temperature := some 55, quality_flag := some 1 }

/-- A row with an in-range temperature. -/
def rowT25 : Row := { temperature := some 25, depth := some 3, quality_flag := some 1 }

/-- Rows with missing depths but different measurement values, and one with
a real depth. -/
def rowsC10 : List Row :=
  [{ depth := none, temperature := some 10, quality_flag := some 1 },
   { depth := none, temperature := some 12, quality_flag := some 1 },
   { depth := some 100, temperature := some 11, quality_flag := some 1 }]

/-- A missing-depth record with every measurement column missing (dropped
by the all-null filter before duplicate removal). -/
def rowAllNull : Row := { depth := none, quality_flag := some 1 }

/-- A later missing-depth record carrying a measurement value. -/
def rowLater : Row := { depth := none, temperature := some 12, quality_flag := some 1 }

/-- A file system with one good profile file and one file that fails to
open. -/
def fsC8 : FS :=
  { files := [("good.nc", { openable := some ds6, md5 := "h1" }),
              ("bad.nc", { openable := none, md5 := "h2" })] }

/-!  Helper lemmas. -/

/-- The function `find_variable` unfolded to the four-pass cascade once the alias list is
known. -/
theorem find_variable_eq (ds : Dataset) (t : String) (ns : List String)
    (h : lookupKey t variable_mappings = some ns) :
    find_variable ds t =
      match directNameMatch ds ns with
      | some r => some r
      | none =>
        match ciExactMatch ds ns with
        | some r => some r
        | none =>
          match ciSubstringMatch ds ns with
          | some r => some r
          | none => attrSubstringMatch ds ns := by
  simp only [find_variable, h]

/-!  The claims. -/

/-- C1: for every canonical field carrying an alias list and every dataset,
`find_variable` applies exactly four passes in strict priority order —
(1) exact case-sensitive alias match in listed order, (2) case-insensitive
exact match, (3) case-insensitive substring match in variable names,
(4) case-insensitive substring match in `long_name`/`standard_name` — and
returns on the first success; it returns `None` iff all four passes fail. -/
theorem c1_variable_resolver_four_passes (ds : Dataset) (t : String)
    (ns : List String) (h : lookupKey t variable_mappings = some ns) :
    (find_variable ds t = none ↔
      directNameMatch ds ns = none ∧ ciExactMatch ds ns = none ∧
      ciSubstringMatch ds ns = none ∧ attrSubstringMatch ds ns = none)
    ∧ (∀ r, directNameMatch ds ns = some r → find_variable ds t = some r)
    ∧ (∀ r, directNameMatch ds ns = none → ciExactMatch ds ns = some r →
        find_variable ds t = some r)
    ∧ (∀ r, directNameMatch ds ns = none → ciExactMatch ds ns = none →
        ciSubstringMatch ds ns = some r → find_variable ds t = some r)
    ∧ (directNameMatch ds ns = none → ciExactMatch ds ns = none →
        ciSubstringMatch ds ns = none →
        find_variable ds t = attrSubstringMatch ds ns)
    ∧ (∀ r, directNameMatch ds ns = some r ↔
        ds.hasVar r = true ∧ ∃ pre suf, ns = pre ++ r :: suf ∧
          ∀ n ∈ pre, ds.hasVar n = false) := by
  rw [find_variable_eq ds t ns h]
  refine ⟨?_, ?_, ?_, ?_, ?_, ?_⟩
  · cases h1 : directNameMatch ds ns <;>
      cases h2 : ciExactMatch ds ns <;>
        cases h3 : ciSubstringMatch ds ns <;> simp
  · intro r h1
    rw [h1]
  · intro r h1 h2
    rw [h1, h2]
  · intro r h1 h2 h3
    rw [h1, h2, h3]
  · intro h1 h2 h3
    rw [h1, h2, h3]
  · intro r
    unfold directNameMatch
    rw [List.find?_eq_some]
    simp

/-- Witness for C1: a dataset holding only `TEMP` resolves temperature via
pass 1. -/
theorem c1_witness :
    find_variable { vars := [{ name := "TEMP" }] } "temperature" = some "TEMP" := by
  exact (c1_variable_resolver_four_passes { vars := [{ name := "TEMP" }] }
    "temperature" tempAliases (by decide)).2.1 "TEMP" (by decide)

/-- C3 counterexample: a dataset containing both `TEMP` and `TEMP_ADJUSTED`
resolves temperature to the raw `TEMP`, not the adjusted variant — the
static alias list places the raw upper-case name first. -/
theorem c3_counterexample :
    dsBothTemp.hasVar "TEMP" = true ∧ dsBothTemp.hasVar "TEMP_ADJUSTED" = true ∧
    find_variable dsBothTemp "temperature" = some "TEMP" ∧
    find_variable dsBothTemp "temperature" ≠ some "TEMP_ADJUSTED" := by decide

/-- C3 (amended): the static alias lists place the raw upper-case variant
ahead of the adjusted variants (`TEMP` before `TEMP_ADJUSTED`), and
resolution returns the entry appearing earliest in the canonical alias list
(not the first-encountered dataset variable); hence for every dataset whose
variables include `TEMP` — in particular one also containing
`TEMP_ADJUSTED` — resolving the temperature field returns the raw `TEMP`. -/
theorem c3_raw_variant_priority (ds : Dataset) (h : ds.hasVar "TEMP" = true) :
    (∃ rest, lookupKey "temperature" variable_mappings =
        some ("TEMP" :: "TEMP_ADJUSTED" :: rest))
    ∧ find_variable ds "temperature" = some "TEMP" := by
  constructor
  · exact ⟨["temp_adjusted", "temp", "temperature", "T", "sea_water_temperature",
      "TEMPERATURE"], by decide⟩
  · rw [find_variable_eq ds "temperature" tempAliases (by decide)]
    have h1 : directNameMatch ds tempAliases = some "TEMP" := by
      unfold directNameMatch tempAliases
      rw [List.find?_cons_of_pos _ h]
    rw [h1]

/-- Witness for C3 (amended): the two-variable dataset of the
counterexample satisfies the hypothesis and resolves to `TEMP`. -/
theorem c3_witness : find_variable dsBothTemp "temperature" = some "TEMP" :=
  (c3_raw_variant_priority dsBothTemp (by decide)).2

/-- C2 counterexample: in a dataset whose platform number resolves to `"42"`
but whose latitude variable holds non-numeric text, the `float()` conversion
raises outside every per-field handler and the shared handler replaces the
whole result with the global fallback — the resolved platform sibling is
discarded (the returned structure carries no platform key at all, not even
the documented `"unknown"` default for `float_id`). -/
theorem c2_counterexample :
    platformFromVars dsPlatformBadLat = some "42"
    ∧ extract_profile_metadata dsPlatformBadLat = fallbackMetadata
    ∧ (extract_profile_metadata dsPlatformBadLat).platform_number = none
    ∧ (extract_profile_metadata dsPlatformBadLat).float_id = none := by decide

/-- C2 (amended): `extract_profile_metadata` never raises: it returns the
per-field best-effort structure whenever no field conversion escapes the
per-field handlers, and otherwise — a conversion error in the unguarded
latitude, longitude or time `float()` calls — the global fallback
dictionary, which discards resolved sibling fields.  In the per-field
structure each unresolved field independently takes its documented default:
platform/float identifier `"unknown"`, cycle number `0`, latitude `0.0`,
longitude `0.0`, measurement date the current wall-clock time, data center
`"unknown"`. -/
theorem c2_metadata_defaults (ds : Dataset) :
    ((∃ m, extractMetaBody ds = .ok m ∧ extract_profile_metadata ds = m)
      ∨ (extractMetaBody ds = .error () ∧ extract_profile_metadata ds = fallbackMetadata))
    ∧ (∀ m, extractMetaBody ds = .ok m →
        (platformFromVars ds = none → platformFromAttrs ds = none →
          m.platform_number = none ∧ m.float_id = some "unknown")
        ∧ (cycleFromVars ds = none → m.cycle_number = 0)
        ∧ (coordFromVarE ds "latitude" = .ok none →
            coordFromAttrs ds latitude_attrs = none → m.latitude = .num 0)
        ∧ (coordFromVarE ds "longitude" = .ok none →
            coordFromAttrs ds longitude_attrs = none → m.longitude = .num 0)
        ∧ (find_variable ds "time" = none → m.measurement_date = .now)
        ∧ (dataCenterFromVars ds = none → dataCenterFromAttrs ds = none →
            m.data_center = "unknown")) := by
  cases hlat : coordFromVarE ds "latitude" with
  | error e =>
    cases e
    refine ⟨Or.inr ⟨?_, ?_⟩, ?_⟩
    · simp only [extractMetaBody, hlat]
    · simp only [extract_profile_metadata, extractMetaBody, hlat]
    · intro m hm
      simp only [extractMetaBody, hlat] at hm
      exact Except.noConfusion hm
  | ok latVar =>
    cases hlon : coordFromVarE ds "longitude" with
    | error e =>
      cases e
      refine ⟨Or.inr ⟨?_, ?_⟩, ?_⟩
      · simp only [extractMetaBody, hlat, hlon]
      · simp only [extract_profile_metadata, extractMetaBody, hlat, hlon]
      · intro m hm
        simp only [extractMetaBody, hlat, hlon] at hm
        exact Except.noConfusion hm
    | ok lonVar =>
      cases htime : timeFieldE ds with
      | error e =>
        cases e
        refine ⟨Or.inr ⟨?_, ?_⟩, ?_⟩
        · simp only [extractMetaBody, hlat, hlon, htime]
        · simp only [extract_profile_metadata, extractMetaBody, hlat, hlon, htime]
        · intro m hm
          simp only [extractMetaBody, hlat, hlon, htime] at hm
          exact Except.noConfusion hm
      | ok mdate =>
        have hbody : extractMetaBody ds = .ok (metaOk ds latVar lonVar mdate) := by
          simp only [extractMetaBody, hlat, hlon, htime]
        refine ⟨Or.inl ⟨_, hbody, ?_⟩, ?_⟩
        · simp only [extract_profile_metadata, hbody]
        · intro m hm
          rw [hbody] at hm
          injection hm with hm
          subst hm
          refine ⟨?_, ?_, ?_, ?_, ?_, ?_⟩
          · intro h1 h2
            simp [metaOk, h1, h2]
          · intro h1
            simp [metaOk, h1]
          · intro h1 h2
            injection h1 with h1
            subst h1
            simp [metaOk, h2]
          · intro h1 h2
            injection h1 with h1
            subst h1
            simp [metaOk, h2]
          · intro h1
            have h3 : timeFieldE ds = .ok .now := by
              simp only [timeFieldE, h1]
            rw [htime] at h3
            have h4 : mdate = .now := by injection h3
            rw [h4]
            rfl
          · intro h1 h2
            simp [metaOk, h1, h2]

/-- Witness for C2 (amended): on the end-to-end dataset the body succeeds,
and the unresolved platform, cycle and data-center fields take their
documented defaults. -/
theorem c2_witness :
    (extract_profile_metadata ds6).float_id = some "unknown"
    ∧ (extract_profile_metadata ds6).cycle_number = 0
    ∧ (extract_profile_metadata ds6).data_center = "unknown" := by
  obtain ⟨hdisj, hfields⟩ := c2_metadata_defaults ds6
  rcases hdisj with ⟨m, hm, hout⟩ | ⟨hm, _⟩
  · have h := hfields m hm
    rw [hout]
    refine ⟨(h.1 (by decide) (by decide)).2, h.2.1 (by decide), ?_⟩
    exact h.2.2.2.2.2 (by decide) (by decide)
  · have hfalse : pyRaises (extractMetaBody ds6) = false := by decide
    rw [hm] at hfalse
    exact Bool.noConfusion hfalse

/-- C4 (the code evaluated on each unit-string family): the
`days since 1950` and `seconds since <date>` branches convert as the claim
says, and an unrecognized unit string falls back to generic parsing of the
raw value with total failure yielding the current wall-clock time; but for
`hours since <date>` units the code never produces a base-plus-hours
timestamp — the branch's reference to the regex module raises
`UnboundLocalError` (`import re` only executes inside the seconds branch),
so the outer handler returns the current wall-clock time instead. -/
theorem c4_time_conversion_eval :
    convert_time_to_datetime daysVar (.num 3) = .epochDays 3
    ∧ convert_time_to_datetime secondsVar (.num 5) = .sinceSeconds "2000-01-01" 5
    ∧ convert_time_to_datetime weirdVar (.num 7) = .parsed (.num 7)
    ∧ convert_time_to_datetime weirdVar (.str "zzz") = .now
    ∧ convert_time_to_datetime hoursVar (.num 5) = .now
    ∧ convert_time_to_datetime hoursVar (.num 5) ≠ .sinceHours "2000-01-01" 5 := by
  decide

/-- The keyword test of the classifier, in existential form. -/
theorem hasOceanIndicator_iff (ds : Dataset) :
    hasOceanIndicator ds = true ↔
      ∃ v ∈ ds.vars, ∃ kw ∈ ocean_indicators,
        strContainsLower v.name kw = true ∨ strContainsLower v.long_name kw = true := by
  unfold hasOceanIndicator
  simp only [List.any_eq_true, Bool.or_eq_true]
  constructor
  · rintro ⟨v, hv, ⟨kw, hkw, h⟩ | ⟨kw, hkw, h⟩⟩
    · exact ⟨v, hv, kw, hkw, Or.inl h⟩
    · exact ⟨v, hv, kw, hkw, Or.inr h⟩
  · rintro ⟨v, hv, kw, hkw, h | h⟩
    · exact ⟨v, hv, Or.inl ⟨kw, hkw, h⟩⟩
    · exact ⟨v, hv, Or.inr ⟨kw, hkw, h⟩⟩

/-- C5: the classifier returns `"argo"` iff at least 2 of the 3 required
raw variables `{PRES, TEMP, PSAL}` are present; with fewer than 2 it
returns `"oceanographic"` iff some variable name or `long_name` attribute
contains (case-insensitively) one of the keywords `sea_water`, `ocean`,
`marine`, `float`, `profile`, and `"general"` otherwise. -/
theorem c5_classifier_threshold (ds : Dataset) :
    (detect_file_type ds = "argo" ↔ 2 ≤ argoVarCount ds)
    ∧ argoVarCount ds = ((if ds.hasVar "PRES" then 1 else 0)
        + (if ds.hasVar "TEMP" then 1 else 0) + (if ds.hasVar "PSAL" then 1 else 0))
    ∧ (argoVarCount ds < 2 →
        (detect_file_type ds = "oceanographic" ↔
          ∃ v ∈ ds.vars, ∃ kw ∈ ocean_indicators,
            strContainsLower v.name kw = true ∨ strContainsLower v.long_name kw = true))
    ∧ (argoVarCount ds < 2 → hasOceanIndicator ds = false →
        detect_file_type ds = "general") := by
  have hd : detect_file_type ds =
      if 2 ≤ argoVarCount ds then "argo"
      else if hasOceanIndicator ds then "oceanographic" else "general" := rfl
  refine ⟨?_, ?_, ?_, ?_⟩
  · rw [hd]
    split_ifs with h1 h2 <;> simp [h1]
  · unfold argoVarCount argo_required_variables
    simp only [List.countP_cons, List.countP_nil]
    by_cases h1 : ds.hasVar "PRES" <;> by_cases h2 : ds.hasVar "TEMP" <;>
      by_cases h3 : ds.hasVar "PSAL" <;> simp [h1, h2, h3]
  · intro h
    rw [hd, if_neg (by omega), ← hasOceanIndicator_iff]
    by_cases ho : hasOceanIndicator ds <;> simp [ho]
  · intro h ho
    rw [hd, if_neg (by omega), ho]
    rfl

/-- Witness for C5: a dataset with exactly `PRES` and `TEMP` classifies as
`"argo"`; one with a single required variable and an ocean keyword
classifies as `"oceanographic"`. -/
theorem c5_witness :
    detect_file_type { vars := [{ name := "PRES" }, { name := "TEMP" }] } = "argo"
    ∧ detect_file_type { vars := [{ name := "PRES" },
        { name := "my_OCEAN_currents" }] } = "oceanographic" := by
  constructor
  · exact (c5_classifier_threshold
      { vars := [{ name := "PRES" }, { name := "TEMP" }] }).1.mpr (by decide)
  · exact ((c5_classifier_threshold
      { vars := [{ name := "PRES" }, { name := "my_OCEAN_currents" }] }).2.2.1
        (by decide)).mpr (by decide)

/-- C6: the end-to-end scenario file yields exactly two measurement
records, each with depth equal to its pressure and quality flag 1, and
profile metadata with latitude 12.5, longitude 75.0 and the `"argo"`
classification. -/
theorem c6_end_to_end :
    extract_measurements ds6 =
      [{ pressure := some (.num 5), depth := some (.num 5),
         temperature := some (.num 10), salinity := some (.num 35),
         quality_flag := some (.num 1) },
       { pressure := some (.num 100), depth := some (.num 100),
         temperature := some (.num 12), salinity := some (.num 35.2),
         quality_flag := some (.num 1) }]
    ∧ (∀ m ∈ extract_measurements ds6, m.depth = m.pressure
        ∧ m.quality_flag = some (.num 1))
    ∧ (extract_profile_metadata ds6).latitude = .num 12.5
    ∧ (extract_profile_metadata ds6).longitude = .num 75
    ∧ (extract_profile_metadata ds6).file_type = "argo" := by decide

/-- An `applyRange` step for one parameter leaves every other column
unchanged. -/
theorem applyRange_get_other (p q : Param) (lo hi : ℚ) (r : Row) (h : q ≠ p) :
    (applyRange p lo hi r).get q = r.get q := by
  unfold applyRange
  split
  · cases p <;> cases q <;> simp [Row.get, Row.put] at h ⊢
  · rfl

/-- The effect of an `applyRange` step on its own column. -/
theorem applyRange_get_self (p : Param) (lo hi : ℚ) (r : Row) :
    (applyRange p lo hi r).get p =
      if outOfRange lo hi (r.get p) then none else r.get p := by
  by_cases h : outOfRange lo hi (r.get p) <;> simp [applyRange, h]
  cases p <;> simp [Row.get, Row.put]

/-- The effect of an `applyRange` step on the quality flag. -/
theorem applyRange_qf (p : Param) (lo hi : ℚ) (r : Row) :
    (applyRange p lo hi r).quality_flag =
      if outOfRange lo hi (r.get p) then some 4 else r.quality_flag := by
  by_cases h : outOfRange lo hi (r.get p) <;> simp [applyRange, h]

/-- A forced bad flag survives later `applyRange` steps. -/
theorem applyRange_qf_four (p : Param) (lo hi : ℚ) (r : Row)
    (h : r.quality_flag = some 4) : (applyRange p lo hi r).quality_flag = some 4 := by
  rw [applyRange_qf]
  split <;> simp [h]

theorem chainRanges_cons (x : Param × ℚ × ℚ) (ps : List (Param × ℚ × ℚ)) (r : Row) :
    chainRanges (x :: ps) r = chainRanges ps (applyRange x.1 x.2.1 x.2.2 r) := rfl

theorem chainRanges_append (l₁ l₂ : List (Param × ℚ × ℚ)) (r : Row) :
    chainRanges (l₁ ++ l₂) r = chainRanges l₂ (chainRanges l₁ r) := by
  unfold chainRanges
  rw [List.foldl_append]

/-- A range chain not mentioning a column leaves it unchanged. -/
theorem chainRanges_get_notmem (ps : List (Param × ℚ × ℚ)) (r : Row) (p : Param)
    (h : ∀ x ∈ ps, x.1 ≠ p) :
    (chainRanges ps r).get p = r.get p := by
  induction ps generalizing r with
  | nil => rfl
  | cons x xs ih =>
    rw [chainRanges_cons, ih _ (fun y hy => h y (List.mem_cons_of_mem x hy))]
    exact applyRange_get_other x.1 p x.2.1 x.2.2 r (Ne.symm (h x (List.mem_cons_self x xs)))

/-- A forced bad flag survives a whole range chain. -/
theorem chainRanges_qf_four (ps : List (Param × ℚ × ℚ)) (r : Row)
    (h : r.quality_flag = some 4) :
    (chainRanges ps r).quality_flag = some 4 := by
  induction ps generalizing r with
  | nil => exact h
  | cons x xs ih =>
    rw [chainRanges_cons]
    exact ih _ (applyRange_qf_four _ _ _ _ h)

/-- A range chain whose masks are all false is the identity. -/
theorem chainRanges_id (ps : List (Param × ℚ × ℚ)) (r : Row)
    (h : ∀ x ∈ ps, outOfRange x.2.1 x.2.2 (r.get x.1) = false) :
    chainRanges ps r = r := by
  induction ps with
  | nil => rfl
  | cons x xs ih =>
    rw [chainRanges_cons]
    have hx : applyRange x.1 x.2.1 x.2.2 r = r := by
      simp [applyRange, h x (List.mem_cons_self x xs)]
    rw [hx]
    exact ih (fun y hy => h y (List.mem_cons_of_mem x hy))

/-- The effect of a range chain on the one column it mentions (once). -/
theorem chainRanges_split (ps₁ ps₂ : List (Param × ℚ × ℚ)) (p : Param) (lo hi : ℚ)
    (r : Row) (h₁ : ∀ x ∈ ps₁, x.1 ≠ p) (h₂ : ∀ x ∈ ps₂, x.1 ≠ p) :
    ((chainRanges (ps₁ ++ (p, lo, hi) :: ps₂) r).get p =
        if outOfRange lo hi (r.get p) then none else r.get p)
    ∧ (outOfRange lo hi (r.get p) = true →
        (chainRanges (ps₁ ++ (p, lo, hi) :: ps₂) r).quality_flag = some 4) := by
  have e : chainRanges (ps₁ ++ (p, lo, hi) :: ps₂) r
      = chainRanges ps₂ (applyRange p lo hi (chainRanges ps₁ r)) := by
    rw [chainRanges_append, chainRanges_cons]
  constructor
  · rw [e, chainRanges_get_notmem _ _ _ h₂, applyRange_get_self,
      chainRanges_get_notmem _ _ _ h₁]
  · intro hout
    rw [e]
    apply chainRanges_qf_four
    rw [applyRange_qf, chainRanges_get_notmem _ _ _ h₁]
    simp [hout]

/-- Each parameter occurs exactly once in `parameter_ranges`, so membership
splits the list with the parameter absent from both sides. -/
theorem mem_ranges_split (p : Param) (lo hi : ℚ)
    (h : (p, lo, hi) ∈ parameter_ranges) :
    ∃ ps₁ ps₂, parameter_ranges = ps₁ ++ (p, lo, hi) :: ps₂
      ∧ (∀ x ∈ ps₁, x.1 ≠ p) ∧ (∀ x ∈ ps₂, x.1 ≠ p) := by
  obtain ⟨s, t, hst⟩ := List.append_of_mem h
  refine ⟨s, t, hst, ?_, ?_⟩
  all_goals
    have hnd : (parameter_ranges.map (fun x => x.1)).Nodup := by decide
    rw [hst, List.map_append, List.map_cons, List.nodup_append] at hnd
    obtain ⟨-, hnd2, hdisj⟩ := hnd
  · intro x hx hxp
    exact hdisj (List.mem_map_of_mem _ hx) (by rw [hxp]; exact List.mem_cons_self _ _)
  · intro x hx hxp
    rw [List.nodup_cons] at hnd2
    exact hnd2.1 (List.mem_map.mpr ⟨x, hx, hxp⟩)

/-- The column-wise range loop acts row by row. -/
theorem rangeStage_eq_map (df : List Row) : rangeStage df = df.map cleanRow := by
  have h : ∀ (ps : List (Param × ℚ × ℚ)) (l : List Row),
      ps.foldl (fun acc pr => acc.map (applyRange pr.1 pr.2.1 pr.2.2)) l
        = l.map (fun r => chainRanges ps r) := by
    intro ps
    induction ps with
    | nil =>
      intro l
      simp [chainRanges]
    | cons x xs ih =>
      intro l
      rw [List.foldl_cons, ih, List.map_map]
      rfl
  exact h parameter_ranges df

/-- C7: in measurement cleaning, the column-wise range loop acts row-wise;
for each parameter with its fixed physically-plausible range (temperature
-5..50, salinity 0..50, pressure 0..10000, depth 0..10000, oxygen 0..500,
nitrate 0..100, ph 6..9, chlorophyll 0..100), a value strictly outside its
range is set to missing and that record's quality flag forced to 4, while
every in-range value is left in place and a record with only in-range
values is left entirely unchanged. -/
theorem c7_range_validation (r : Row) :
    (∀ df : List Row, rangeStage df = df.map cleanRow)
    ∧ (∀ p lo hi v, (p, lo, hi) ∈ parameter_ranges → r.get p = some v →
        (v < lo ∨ hi < v) →
        (cleanRow r).get p = none ∧ (cleanRow r).quality_flag = some 4)
    ∧ (∀ p lo hi v, (p, lo, hi) ∈ parameter_ranges → r.get p = some v →
        lo ≤ v → v ≤ hi → (cleanRow r).get p = some v)
    ∧ ((∀ p lo hi, (p, lo, hi) ∈ parameter_ranges →
        outOfRange lo hi (r.get p) = false) → cleanRow r = r) := by
  refine ⟨rangeStage_eq_map, ?_, ?_, ?_⟩
  · intro p lo hi v hmem hv hout
    obtain ⟨ps₁, ps₂, heq, h₁, h₂⟩ := mem_ranges_split p lo hi hmem
    have hsp := chainRanges_split ps₁ ps₂ p lo hi r h₁ h₂
    have hcr : cleanRow r = chainRanges (ps₁ ++ (p, lo, hi) :: ps₂) r := by
      rw [cleanRow, heq]
    have hb : outOfRange lo hi (r.get p) = true := by
      rcases hout with h | h <;> simp [outOfRange, hv, h]
    constructor
    · rw [hcr, hsp.1]
      simp [hb]
    · rw [hcr]
      exact hsp.2 hb
  · intro p lo hi v hmem hv hlo hhi
    obtain ⟨ps₁, ps₂, heq, h₁, h₂⟩ := mem_ranges_split p lo hi hmem
    have hsp := chainRanges_split ps₁ ps₂ p lo hi r h₁ h₂
    have hcr : cleanRow r = chainRanges (ps₁ ++ (p, lo, hi) :: ps₂) r := by
      rw [cleanRow, heq]
    have hb : outOfRange lo hi (r.get p) = false := by
      simp [outOfRange, hv, not_lt.mpr hlo, not_lt.mpr hhi]
    rw [hcr, hsp.1, hb]
    simp [hv]
  · intro h
    rw [cleanRow]
    apply chainRanges_id
    intro x hx
    have := h x.1 x.2.1 x.2.2 (by simpa using hx)
    exact this

/-- Witness for C7: a temperature of 55 is nulled with flag 4; a record
whose only value is an in-range temperature of 25 is untouched. -/
theorem c7_witness :
    (cleanRow rowT55).temperature = none
    ∧ (cleanRow rowT55).quality_flag = some 4
    ∧ cleanRow rowT25 = rowT25 := by
  have h55 := (c7_range_validation rowT55).2.1 .temperature (-5) 50 55
    (by decide) (by decide) (Or.inr (by decide))
  have hball : ∀ x ∈ parameter_ranges,
      outOfRange x.2.1 x.2.2 (rowT25.get x.1) = false := by decide
  have h25 := (c7_range_validation rowT25).2.2.2
    (fun p lo hi hmem => hball (p, lo, hi) hmem)
  exact ⟨h55.1, h55.2, h25⟩

/-- C9: anomaly detection on a parameter series with fewer than 10
non-missing values flags no record regardless of spread; with at least 10,
a record is flagged iff it holds a value whose squared deviation from the
mean exceeds nine sample variances (the `|z-score| > 3` test in its exact,
radical-free form) or which lies outside the fence
`[Q1 - 1.5*IQR, Q3 + 1.5*IQR]`; missing records are never flagged; in
particular a point at least ten standard deviations from the mean (squared
deviation at least 100 variances, with positive spread) is flagged. -/
theorem c9_anomaly_detection (col : List (Option ℚ)) :
    ((col.filterMap id).length < 10 → ∀ b ∈ detect_anomalies col, b = false)
    ∧ (10 ≤ (col.filterMap id).length → ∀ (i : Nat) (v : ℚ), col[i]? = some (some v) →
        ((detect_anomalies col)[i]? = some true ↔
          (9 * seriesVar (col.filterMap id)
              < (v - seriesMean (col.filterMap id)) * (v - seriesMean (col.filterMap id))
            ∨ v < fenceLower (col.filterMap id)
            ∨ fenceUpper (col.filterMap id) < v)))
    ∧ (∀ i : Nat, col[i]? = some none → (detect_anomalies col)[i]? = some false)
    ∧ (10 ≤ (col.filterMap id).length → ∀ (i : Nat) (v : ℚ), col[i]? = some (some v) →
        0 < seriesVar (col.filterMap id) →
        100 * seriesVar (col.filterMap id)
          ≤ (v - seriesMean (col.filterMap id)) * (v - seriesMean (col.filterMap id)) →
        (detect_anomalies col)[i]? = some true) := by
  by_cases hlen : (col.filterMap id).length < 10
  · refine ⟨?_, ?_, ?_, ?_⟩
    · intro _ b hb
      unfold detect_anomalies at hb
      rw [if_pos hlen] at hb
      simp at hb
      exact hb.2
    · intro h10
      exact absurd h10 (by omega)
    · intro i hi
      unfold detect_anomalies
      rw [if_pos hlen, List.getElem?_map, hi]
      rfl
    · intro h10
      exact absurd h10 (by omega)
  · refine ⟨fun h => absurd h hlen, ?_, ?_, ?_⟩
    · intro _ i v hi
      unfold detect_anomalies
      rw [if_neg hlen, List.getElem?_map, hi]
      simp [anomalyFlag]
      exact or_assoc
    · intro i hi
      unfold detect_anomalies
      rw [if_neg hlen, List.getElem?_map, hi]
      rfl
    · intro _ i v hi hvar hdev
      unfold detect_anomalies
      rw [if_neg hlen, List.getElem?_map, hi]
      have h9 : 9 * seriesVar (col.filterMap id)
          < (v - seriesMean (col.filterMap id)) * (v - seriesMean (col.filterMap id)) := by
        linarith
      simp [anomalyFlag, h9]

/-- Witness for C9: in the 121-value series of 120 zeros and one 121, the
outlier (squared deviation 14400 against 100 variances = 12100) is
flagged. -/
theorem c9_witness : (detect_anomalies series121)[120]? = some true := by
  exact (c9_anomaly_detection series121).2.2.2 (by decide) 120 121
    (by decide) (by decide) (by decide)

/-- Filtering by `p` after filtering by a weaker `q` is filtering by `p`. -/
theorem filter_filter_of_imp {α : Type} (p q : α → Bool) (l : List α)
    (h : ∀ x ∈ l, p x = true → q x = true) :
    (l.filter q).filter p = l.filter p := by
  induction l with
  | nil => rfl
  | cons x xs ih =>
    have ih2 := ih (fun y hy hpy => h y (List.mem_cons_of_mem x hy) hpy)
    by_cases hq : q x
    · simp [List.filter_cons, hq, ih2]
    · have hp : p x = false :=
        Bool.eq_false_iff.mpr (fun hc => hq (h x (List.mem_cons_self x xs) hc))
      simp [List.filter_cons, hq, hp, ih2]

/-- Mapping `cleanRow` commutes with the missing-depth filter when the map
preserves depth-missingness on the list's rows. -/
theorem filter_map_comm_depth (l : List Row)
    (h : ∀ r ∈ l, (cleanRow r).depth.isNone = r.depth.isNone) :
    (l.map cleanRow).filter (fun r => r.depth.isNone)
      = (l.filter (fun r => r.depth.isNone)).map cleanRow := by
  induction l with
  | nil => rfl
  | cons x xs ih =>
    have ih2 := ih (fun y hy => h y (List.mem_cons_of_mem x hy))
    by_cases hx : x.depth.isNone
    · simp [List.filter_cons, h x (List.mem_cons_self x xs), hx, ih2]
    · have hx2 : x.depth.isNone = false := Bool.eq_false_iff.mpr hx
      simp [List.filter_cons, h x (List.mem_cons_self x xs), hx2, ih2]

/-- The effect of the whole range loop on the depth column. -/
theorem cleanRow_depth (r : Row) :
    (cleanRow r).depth = if outOfRange 0 10000 r.depth then none else r.depth := by
  have hsp := chainRanges_split
    [(.temperature, -5, 50), (.salinity, 0, 50), (.pressure, 0, 10000)]
    [(.oxygen, 0, 500), (.nitrate, 0, 100), (.ph, 6, 9), (.chlorophyll, 0, 100)]
    .depth 0 10000 r (by decide) (by decide)
  exact hsp.1

/-- Duplicate-depth removal keeps, among rows with a given unseen key, only
the first; here for the missing key. -/
theorem dedupDepthAux_filter_none (seen : List (Option ℚ)) (l : List Row) :
    (dedupDepthAux seen l).filter (fun r => r.depth.isNone)
      = if none ∈ seen then [] else (l.filter (fun r => r.depth.isNone)).take 1 := by
  induction l generalizing seen with
  | nil =>
    by_cases h : (none : Option ℚ) ∈ seen <;> simp [dedupDepthAux, h]
  | cons r rest ih =>
    unfold dedupDepthAux
    by_cases hseen : r.depth ∈ seen
    · rw [if_pos hseen, ih]
      by_cases hn : (none : Option ℚ) ∈ seen
      · rw [if_pos hn, if_pos hn]
      · rw [if_neg hn, if_neg hn]
        have hd : r.depth.isNone = false := by
          cases hd : r.depth with
          | none => rw [hd] at hseen; exact absurd hseen hn
          | some d => rfl
        simp [List.filter_cons, hd]
    · rw [if_neg hseen, List.filter_cons]
      by_cases hd : r.depth.isNone
      · have hnone : r.depth = none := Option.isNone_iff_eq_none.mp hd
        have hn : (none : Option ℚ) ∉ seen := by rw [← hnone]; exact hseen
        rw [ih]
        have hn2 : (none : Option ℚ) ∈ r.depth :: seen := by
          rw [hnone]; exact List.mem_cons_self _ _
        rw [if_pos hn2, if_neg hn]
        simp [hd]
      · have hd2 : r.depth.isNone = false := Bool.eq_false_iff.mpr hd
        have hsome : r.depth ≠ none := by
          intro hc
          rw [hc] at hd2
          simp at hd2
        rw [if_neg (by simp [hd2]), ih]
        have heq : ((none : Option ℚ) ∈ r.depth :: seen) ↔ ((none : Option ℚ) ∈ seen) := by
          constructor
          · intro h
            rcases List.mem_cons.mp h with hc | hc
            · exact absurd hc.symm hsome
            · exact hc
          · exact fun h => List.mem_cons_of_mem _ h
        by_cases hn : (none : Option ℚ) ∈ seen
        · rw [if_pos (heq.mpr hn), if_pos hn]
        · rw [if_neg (fun hc => hn (heq.mp hc)), if_neg hn, List.filter_cons,
            if_neg (by simp [hd2])]

/-- A comparison sort leaves a filtered sublist of at most one element in
place. -/
theorem sortByDepth_filter_le_one (l : List Row) (p : Row → Bool)
    (h : (l.filter p).length ≤ 1) :
    (sortByDepth l).filter p = l.filter p := by
  have hperm : List.Perm ((sortByDepth l).filter p) (l.filter p) :=
    List.Perm.filter p (List.perm_insertionSort _ l)
  cases hc : l.filter p with
  | nil =>
    rw [hc] at hperm
    exact hperm.eq_nil
  | cons x xs =>
    cases xs with
    | nil =>
      rw [hc] at hperm
      exact List.perm_singleton.mp hperm
    | cons y ys =>
      rw [hc] at h
      simp at h

/-- C10 counterexample: when the first missing-depth record is all-null,
the all-null drop (which runs before duplicate removal) removes it, and a
later missing-depth record is the one that survives cleaning — so it is
not true of every input that only the first missing-depth record in
original order survives. -/
theorem c10_counterexample :
    rowAllNull.depth = none ∧ rowLater.depth = none
    ∧ clean_measurements [rowAllNull, rowLater] = [rowLater] := by decide

/-- C10 (amended): duplicate-depth removal treats missing depths as equal
to one another; among the missing-depth records that reach it — those
carrying at least one non-missing measurement (surviving the all-null
drop), in a frame whose present depths are in range (so the range step
neither creates nor destroys missing depths) — only the first in original
order survives cleaning and every later missing-depth record is dropped,
even when its other measurement values differ from the kept record's. -/
theorem c10_missing_depth_dedup (df : List Row)
    (h1 : ∀ r ∈ df, r.depth = none →
      measurement_cols.any (fun p => (r.get p).isSome) = true)
    (h2 : ∀ r ∈ df, ∀ d : ℚ, r.depth = some d → 0 ≤ d ∧ d ≤ 10000) :
    (clean_measurements df).filter (fun r => r.depth.isNone)
      = ((df.filter (fun r => r.depth.isNone)).take 1).map cleanRow := by
  unfold clean_measurements
  have hA : (dropAllNull df).filter (fun r => r.depth.isNone)
      = df.filter (fun r => r.depth.isNone) := by
    unfold dropAllNull
    exact filter_filter_of_imp _ _ df
      (fun r hr hp => h1 r hr (Option.isNone_iff_eq_none.mp hp))
  have hdep : ∀ r ∈ dropAllNull df, (cleanRow r).depth.isNone = r.depth.isNone := by
    intro r hr
    have hrdf : r ∈ df := List.mem_of_mem_filter hr
    rw [cleanRow_depth]
    cases hd : r.depth with
    | none => simp [outOfRange]
    | some d =>
      have hb := h2 r hrdf d hd
      have hout : outOfRange 0 10000 (some d) = false := by
        simp [outOfRange, not_lt.mpr hb.1, not_lt.mpr hb.2]
      simp [hout]
  have hB : (rangeStage (dropAllNull df)).filter (fun r => r.depth.isNone)
      = ((dropAllNull df).filter (fun r => r.depth.isNone)).map cleanRow := by
    rw [rangeStage_eq_map]
    exact filter_map_comm_depth _ hdep
  have hC : (dedupDepth (rangeStage (dropAllNull df))).filter (fun r => r.depth.isNone)
      = ((rangeStage (dropAllNull df)).filter (fun r => r.depth.isNone)).take 1 := by
    unfold dedupDepth
    rw [dedupDepthAux_filter_none]
    simp
  have hlen : ((dedupDepth (rangeStage (dropAllNull df))).filter
      (fun r => r.depth.isNone)).length ≤ 1 := by
    rw [hC]
    simp [List.length_take]
  rw [sortByDepth_filter_le_one _ _ hlen, hC, hB, hA, List.map_take]

/-- Witness for C10: of three records — two with missing depth and distinct
temperatures, one at depth 100 — cleaning keeps only the first missing-depth
record among the missing-depth rows. -/
theorem c10_witness :
    (clean_measurements rowsC10).filter (fun r => r.depth.isNone)
      = [{ depth := none, temperature := some 10, quality_flag := some 1 }] := by
  have h := c10_missing_depth_dedup rowsC10 (by decide) (by decide)
  rw [h]
  decide

/-- Validation success guarantees the file is present and opens. -/
theorem validate_file_opens (fs : FS) (mode : String) (p : String)
    (hv : validate_file fs mode p = true) :
    ∃ c ds, lookupKey p fs.files = some c ∧ c.openable = some ds := by
  cases hl : lookupKey p fs.files with
  | none =>
    simp only [validate_file, hl] at hv
    exact Bool.noConfusion hv
  | some c =>
    cases ho : c.openable with
    | none =>
      simp only [validate_file, hl, ho] at hv
      exact Bool.noConfusion hv
    | some ds => exact ⟨c, ds, rfl, ho⟩

/-- The batch loop collects the successful per-file results, in order. -/
theorem process_multiple_files_eq (fs : FS) (mode : String) (paths : List String) :
    process_multiple_files fs mode paths
      = paths.filterMap (fun q => (process_file fs mode q).toOption) := by
  have h : ∀ (ps : List String) (acc : List (Metadata × List Measurement)),
      ps.foldl (fun acc p => match process_file fs mode p with
        | .ok r => acc ++ [r]
        | .error _ => acc) acc
        = acc ++ ps.filterMap (fun q => (process_file fs mode q).toOption) := by
    intro ps
    induction ps with
    | nil =>
      intro acc
      simp
    | cons x xs ih =>
      intro acc
      rw [List.foldl_cons, List.filterMap_cons]
      cases hx : process_file fs mode x with
      | ok r => simp [hx, Except.toOption, ih]
      | error e => simp [hx, Except.toOption, ih]
  simpa using h paths []

/-- C8: `process_file` raises to its caller exactly when validation fails,
and validation fails exactly when the file does not exist, cannot be opened
as a dataset, contains no variables, or fails the strict-mode argo
structural check; the batch entry point catches each per-file failure and
still returns the results of all successfully processed files in order
(`filterMap` of the per-file outcomes), so one failing file never aborts
the rest. -/
theorem c8_failure_isolation (fs : FS) (mode : String) (p : String) :
    (pyRaises (process_file fs mode p) = true ↔ validate_file fs mode p = false)
    ∧ (validate_file fs mode p = false ↔
        (lookupKey p fs.files = none
        ∨ (∃ c, lookupKey p fs.files = some c ∧ c.openable = none)
        ∨ (∃ c ds, lookupKey p fs.files = some c ∧ c.openable = some ds
            ∧ ds.vars.length = 0)
        ∨ (∃ c ds, lookupKey p fs.files = some c ∧ c.openable = some ds
            ∧ ds.vars.length ≠ 0 ∧ mode = "argo" ∧ detect_file_type ds ≠ "argo"
            ∧ ∀ v ∈ argo_required_variables, ds.hasVar v = false)))
    ∧ (∀ paths : List String, process_multiple_files fs mode paths
        = paths.filterMap (fun q => (process_file fs mode q).toOption)) := by
  refine ⟨?_, ?_, fun paths => process_multiple_files_eq fs mode paths⟩
  · by_cases hv : validate_file fs mode p
    · obtain ⟨c, ds, hl, ho⟩ := validate_file_opens fs mode p hv
      simp [process_file, hv, hl, ho, pyRaises]
    · have hv2 : validate_file fs mode p = false := Bool.eq_false_iff.mpr hv
      simp [process_file, hv2, pyRaises]
  · cases hl : lookupKey p fs.files with
    | none => simp [validate_file, hl]
    | some c =>
      cases ho : c.openable with
      | none => simp [validate_file, hl, ho]
      | some ds =>
        have hval : validate_file fs mode p =
            (if ds.vars.length = 0 then false
             else if (mode == "argo" && detect_file_type ds != "argo") = true then
               argo_required_variables.any (fun v => ds.hasVar v)
             else true) := by
          simp only [validate_file, hl, ho]
        rw [hval]
        have href : (some c = none
            ∨ (∃ c2, some c = some c2 ∧ c2.openable = none)
            ∨ (∃ c2 ds2, some c = some c2 ∧ c2.openable = some ds2
                ∧ ds2.vars.length = 0)
            ∨ (∃ c2 ds2, some c = some c2 ∧ c2.openable = some ds2
                ∧ ds2.vars.length ≠ 0 ∧ mode = "argo" ∧ detect_file_type ds2 ≠ "argo"
                ∧ ∀ v ∈ argo_required_variables, ds2.hasVar v = false)) →
            (ds.vars.length = 0
              ∨ (mode = "argo" ∧ detect_file_type ds ≠ "argo"
                  ∧ ∀ v ∈ argo_required_variables, ds.hasVar v = false)) := by
          intro hdis
          rcases hdis with h | ⟨c2, hc2, hop⟩ | ⟨c2, ds2, hc2, hop, hz2⟩ |
            ⟨c2, ds2, hc2, hop, hz2, hmode, hdet, hall⟩
          · exact Option.noConfusion h
          · injection hc2 with hc2
            subst hc2
            rw [ho] at hop
            exact Option.noConfusion hop
          · injection hc2 with hc2
            subst hc2
            rw [ho] at hop
            injection hop with hop
            subst hop
            exact Or.inl hz2
          · injection hc2 with hc2
            subst hc2
            rw [ho] at hop
            injection hop with hop
            subst hop
            exact Or.inr ⟨hmode, hdet, hall⟩
        by_cases hz : ds.vars.length = 0
        · rw [if_pos hz]
          constructor
          · intro _
            exact Or.inr (Or.inr (Or.inl ⟨c, ds, rfl, ho, hz⟩))
          · intro _
            rfl
        · rw [if_neg hz]
          by_cases hm : (mode == "argo" && detect_file_type ds != "argo") = true
          · rw [if_pos hm]
            rw [Bool.and_eq_true, beq_iff_eq, bne_iff_ne] at hm
            by_cases ha : argo_required_variables.any (fun v => ds.hasVar v) = true
            · rw [ha]
              obtain ⟨v0, hv0mem, hv0has⟩ := List.any_eq_true.mp ha
              constructor
              · intro h
                exact absurd h (by simp)
              · intro hdis
                rcases href hdis with h | ⟨-, -, hall⟩
                · exact absurd h hz
                · have hc := hall v0 hv0mem
                  rw [hv0has] at hc
                  exact Bool.noConfusion hc
            · have ha2 : argo_required_variables.any (fun v => ds.hasVar v) = false :=
                Bool.eq_false_iff.mpr ha
              rw [ha2]
              constructor
              · intro _
                refine Or.inr (Or.inr (Or.inr ⟨c, ds, rfl, ho, hz, hm.1, hm.2, ?_⟩))
                intro v hvmem
                refine Bool.eq_false_iff.mpr (fun hc => ha ?_)
                exact List.any_eq_true.mpr ⟨v, hvmem, hc⟩
              · intro _
                rfl
          · rw [if_neg hm]
            rw [Bool.and_eq_true, beq_iff_eq, bne_iff_ne] at hm
            constructor
            · intro h
              exact absurd h (by simp)
            · intro hdis
              rcases href hdis with h | ⟨hmode, hdet, -⟩
              · exact absurd h hz
              · exact (hm ⟨hmode, hdet⟩).elim

/-- Witness for C8: with one unopenable file ahead of one good file in the
batch, the bad file raises and is skipped while the good file's result is
still returned. -/
theorem c8_witness :
    pyRaises (process_file fsC8 "flexible" "bad.nc") = true
    ∧ (process_multiple_files fsC8 "flexible" ["bad.nc", "good.nc"]).length = 1 := by
  constructor
  · exact ((c8_failure_isolation fsC8 "flexible" "bad.nc").1).mpr (by decide)
  · rw [(c8_failure_isolation fsC8 "flexible" "bad.nc").2.2 ["bad.nc", "good.nc"]]
    decide

end FloatChat